import Mathlib

/-!
Shallow embedding of the job-execution core of the Spacedrive repository
sample: the identifier step (`core/src/object/identifier_job/mod.rs`), the
thumbnailer job init (`core/src/object/preview/thumbnail/thumbnailer_job.rs`),
the shallow indexer job init (`core/src/location/indexer/shallow_indexer_job.rs`)
and the `invalidateQuery` subscription stream (`core/src/api/mod.rs`).

Filesystems, the catalog database, the walker and the canonicalizer are
modelled as explicit function parameters; machine integers are `Int`/`Nat`.
-/

namespace Spacedrive

/-- Rust `Path::join` on our string paths: `a.join(b)`.  An empty component
leaves the base unchanged, otherwise the two are separated by `/`. -/
def joinPath (a b : String) : String :=
  if b = "" then a else a ++ "/" ++ b

/-- Rust `str::starts_with` (and the SQL `starts_with` filter), computed on
the underlying character lists. -/
def strStartsWith (s p : String) : Bool :=
  p.data.isPrefixOf s.data

/-- Build profile of the compiled binary.  The source's `assert!` macro is
active in every profile (Rust only strips `debug_assert!`), so none of the
embedded definitions below branch on this value. -/
inductive BuildMode
  | debug
  | release
deriving DecidableEq, Repr

/-- Metadata returned by `fs::metadata` for an existing path. -/
structure FsMeta where
  isDir : Bool
  len : Nat
deriving DecidableEq, Repr

/-- The result assembled by `FileMetadata::new`. -/
structure FileMetadata where
  casId : String
  kind : Int
  len : Nat
deriving DecidableEq, Repr

/-- Outcome of one `FileMetadata::new` call: an io error (`fs::metadata`
failed), a panic (the `assert!` on directories fired), or success. -/
inductive FMResult
  | ioError
  | panicked
  | ok (m : FileMetadata)
deriving DecidableEq, Repr

/-- Embedding of `FileMetadata::new` (identifier_job/mod.rs:49-78).
`cas` models `generate_cas_id` (a deterministic function of the file's path
and length; its blake3 internals live outside the sample), `kindOf` models
`Extension::resolve_conflicting`, and `fs` is the filesystem's metadata map.
The `assert!(!fs_metadata.is_dir())` fires in debug and release builds alike,
so the result does not depend on the `_mode` argument. -/
def FileMetadata.new (_mode : BuildMode) (cas : String → Nat → String)
    (kindOf : String → Int) (fs : String → Option FsMeta)
    (locationPath matPath : String) : FMResult :=
  match fs (joinPath locationPath matPath) with
  | none => .ioError
  | some md =>
    if md.isDir then .panicked
    else .ok { casId := cas (joinPath locationPath matPath) md.len
               kind := kindOf (joinPath locationPath matPath)
               len := md.len }

/-- A `file_path` row handed to the identifier step (id, materialized path,
creation date). -/
structure FilePathData where
  id : Int
  materializedPath : String
  dateCreated : Int
deriving DecidableEq, Repr

/-- A `file_path` row as selected inside the object query
(`select { id cas_id }`). -/
structure ObjFilePathRow where
  id : Int
  casId : Option String
deriving DecidableEq, Repr

/-- An `object` row with its linked file paths, as returned by the
`db.object().find_many` query of the identifier step. -/
structure ObjectRec where
  id : Int
  pubId : Nat
  filePaths : List ObjFilePathRow
deriving DecidableEq, Repr

/-- An `object` row assembled by `object::create_unchecked` in step 5. -/
structure NewObject where
  pubId : Nat
  dateCreated : Int
  kind : Int
  sizeInBytes : String
deriving DecidableEq, Repr

/-- Everything the identifier step writes, plus its return value. -/
structure IdStepResult where
  /-- cas_id updates written in step 2, one per successfully analyzed row. -/
  casUpdates : List (Int × String)
  /-- step 4 connections `(file_path id, object pub_id)` to existing objects. -/
  connectsExisting : List (Int × Nat)
  /-- objects inserted by `create_many` in step 5. -/
  newObjects : List NewObject
  /-- step 5 connections `(file_path id, object pub_id)` to the new objects. -/
  connectsNew : List (Int × Nat)
  /-- the `(total_created, updated_file_paths.len())` pair the step returns. -/
  ret : Nat × Nat
deriving DecidableEq, Repr

/-- Does this object have a linked file path carrying exactly this cas id?
This is the predicate of the `find` in step 4 of the identifier step. -/
def objectMatchesCas (o : ObjectRec) (c : String) : Bool :=
  o.filePaths.any (fun f => f.casId = some c)

/-- The ambient world of one identifier step: build profile, cas and kind
functions, filesystem, uuid source and the location's path. -/
structure IdEnv where
  mode : BuildMode
  cas : String → Nat → String
  kindOf : String → Int
  fs : String → Option FsMeta
  uuidGen : Nat → Nat
  locationPath : String

/-- The `FileMetadata::new` call the step makes for one row. -/
def idMeta (env : IdEnv) (fp : FilePathData) : FMResult :=
  FileMetadata.new env.mode env.cas env.kindOf env.fs env.locationPath
    fp.materializedPath

/-- Embedding of `file_path_metas` (identifier_job/mod.rs:88-102): the rows whose
analysis succeeded, each with its metadata; the `flat_map` drops io errors.
The source collects into a `HashMap` keyed by `file_path.id` — ids within a
chunk are distinct, and the embedding keeps the list. -/
def idMetas (env : IdEnv) (filePaths : List FilePathData) :
    List (FilePathData × FileMetadata) :=
  filePaths.filterMap (fun fp =>
    match idMeta env fp with | .ok m => some (fp, m) | _ => none)

/-- Embedding of `unique_cas_ids` (mod.rs:130-135): the deduplicated cas ids of the
chunk. -/
def idUniqueCasIds (env : IdEnv) (filePaths : List FilePathData) :
    List String :=
  ((idMetas env filePaths).map (fun p => p.2.casId)).dedup

/-- Embedding of `existing_objects` (mod.rs:138-148): objects having some linked file
path whose cas id is among the chunk's cas ids. -/
def idExistingObjects (env : IdEnv) (dbObjects : List ObjectRec)
    (filePaths : List FilePathData) : List ObjectRec :=
  dbObjects.filter (fun o => o.filePaths.any (fun f =>
    match f.casId with
    | some c => (idUniqueCasIds env filePaths).contains c
    | none => false))

/-- Embedding of `existing_object_cas_ids` (mod.rs:150-153): every cas id linked to one
of the `existing_objects`. -/
def idExistingCasIds (env : IdEnv) (dbObjects : List ObjectRec)
    (filePaths : List FilePathData) : List String :=
  ((idExistingObjects env dbObjects filePaths).map
    ObjectRec.filePaths).flatten.filterMap ObjFilePathRow.casId

/-- Embedding of `updated_file_paths`, step 4 (mod.rs:157-184): each analyzed row is
connected to the FIRST object of `existing_objects` matching its cas id,
when one exists. -/
def idConnectsExisting (env : IdEnv) (dbObjects : List ObjectRec)
    (filePaths : List FilePathData) : List (Int × Nat) :=
  (idMetas env filePaths).filterMap (fun p =>
    ((idExistingObjects env dbObjects filePaths).find?
      (fun o => objectMatchesCas o p.2.casId)).map
      (fun o => (p.1.id, o.pubId)))

/-- Embedding of `file_paths_requiring_new_object` (mod.rs:192-195). -/
def idRequiringNew (env : IdEnv) (dbObjects : List ObjectRec)
    (filePaths : List FilePathData) : List (FilePathData × FileMetadata) :=
  (idMetas env filePaths).filter (fun p =>
    ¬ (idExistingCasIds env dbObjects filePaths).contains p.2.casId)

/-- The objects built by `create_many` in step 5 (mod.rs:209-264): one per
row requiring a new object, each with a fresh pub id. -/
def idNewObjects (env : IdEnv) (dbObjects : List ObjectRec)
    (filePaths : List FilePathData) : List NewObject :=
  (idRequiringNew env dbObjects filePaths).enum.map
    (fun ip => { pubId := env.uuidGen ip.1
                 dateCreated := ip.2.1.dateCreated
                 kind := ip.2.2.kind
                 sizeInBytes := toString ip.2.2.len : NewObject })

/-- The step-5 connections of each such row to its newly created object. -/
def idConnectsNew (env : IdEnv) (dbObjects : List ObjectRec)
    (filePaths : List FilePathData) : List (Int × Nat) :=
  (idRequiringNew env dbObjects filePaths).enum.map
    (fun ip => (ip.2.1.id, env.uuidGen ip.1))

/-- Embedding of `identifier_job_step` (identifier_job/mod.rs:80-283) for
one chunk.  `dbObjects` is the object table with its file_path links.
`none` models the step panicking: a directory among the chunk's file paths
fired the `assert!` inside the `join_all`.  Otherwise the step performs the
writes recorded in `IdStepResult` and returns
`(total_created, updated_file_paths.len())`. -/
def identifier_job_step (env : IdEnv) (dbObjects : List ObjectRec)
    (filePaths : List FilePathData) : Option IdStepResult :=
  if filePaths.any (fun fp => idMeta env fp = FMResult.panicked) then none
  else
    some { casUpdates := (idMetas env filePaths).map (fun p => (p.1.id, p.2.casId))
           connectsExisting := idConnectsExisting env dbObjects filePaths
           newObjects := idNewObjects env dbObjects filePaths
           connectsNew := idConnectsNew env dbObjects filePaths
           ret := (if (idRequiringNew env dbObjects filePaths).isEmpty then 0
                   else (idNewObjects env dbObjects filePaths).length,
                   (idConnectsExisting env dbObjects filePaths).length) }

/-- The two validation errors raised on a bad `sub_path`. -/
inductive SubPathError
  | notInLocation
  | notDirectory
deriving DecidableEq, Repr

/-- Modelled from the spec: `ensure_sub_path_is_in_location` lives in
`location/file_path_helper`, which is outside the sample.  Per §4.3 the
sub_path "must (a) lie inside the location path after canonicalization",
raising `SubPathNotInLocation` otherwise; on success the canonicalized full
path is returned.  `canon` models filesystem canonicalization. -/
def ensure_sub_path_is_in_location (canon : String → Option String)
    (locationPath subPath : String) : Except SubPathError String :=
  match canon (joinPath locationPath subPath) with
  | none => .error .notInLocation
  | some full =>
    if strStartsWith full locationPath then .ok full
    else .error .notInLocation

/-- Modelled from the spec: `ensure_sub_path_is_directory` lives in
`location/file_path_helper`, which is outside the sample.  Per §4.3 the
sub_path must "(b) point to an existing directory", raising
`SubPathNotDirectory` otherwise.  `isDirF` tells whether a canonical path is
an existing directory. -/
def ensure_sub_path_is_directory (canon : String → Option String)
    (isDirF : String → Bool) (locationPath subPath : String) :
    Except SubPathError Unit :=
  match canon (joinPath locationPath subPath) with
  | none => .error .notDirectory
  | some full => if isDirF full then .ok () else .error .notDirectory

/-- Modelled from the spec: `MaterializedPath::new` lives in
`location/file_path_helper`, which is outside the sample.  Per §3 and §6: the
location root materializes as `/`, every path gets a leading `/`, directories
carry a trailing `/`; a path not under the location is rejected. -/
def materialized_path_new (locationPath fullPath : String) (isDir : Bool) :
    Option String :=
  if fullPath = locationPath then some "/"
  else if strStartsWith fullPath (locationPath ++ "/") then
    some (String.mk ('/' :: fullPath.data.drop (locationPath.data.length + 1)) ++
      (if isDir then "/" else ""))
  else none

/-- A `file_path` row as seen by the thumbnailer's query. -/
structure ThumbFilePathRow where
  locationId : Int
  materializedPath : String
  extension : String
  casId : Option String
deriving DecidableEq, Repr

/-- Embedding of `ThumbnailerJobStepKind`: one thumbnail per image or video file. -/
inductive ThumbKind
  | image
  | video
deriving DecidableEq, Repr

/-- Embedding of `ThumbnailerJobStep`: one queued file path plus its kind. -/
structure ThumbStep where
  filePath : ThumbFilePathRow
  kind : ThumbKind
deriving DecidableEq, Repr

/-- Embedding of `get_files_by_extensions`
(thumbnailer_job.rs:168-187): file_paths of the location whose extension is
in `extensions` and whose materialized_path starts with `materializedPath`. -/
def get_files_by_extensions (db : List ThumbFilePathRow) (locationId : Int)
    (materializedPath : String) (extensions : List String) (kind : ThumbKind) :
    List ThumbStep :=
  (db.filter (fun fp =>
    fp.locationId = locationId && extensions.contains fp.extension &&
      strStartsWith fp.materializedPath materializedPath)).map
    (fun fp => ⟨fp, kind⟩)

/-- The fields of `location::Data` the thumbnailer touches: `id`, `path`,
and `pubId` standing in for every other column of the row. -/
structure LocationData where
  id : Int
  path : String
  pubId : Int
deriving DecidableEq, Repr

/-- Embedding of `ThumbnailerJobInit` (thumbnailer_job.rs:32-37). -/
structure ThumbnailerJobInit where
  location : LocationData
  subPath : Option String
  background : Bool
deriving DecidableEq, Repr

/-- Outcome of `ThumbnailerJob::init`: a sub_path validation error, another
error (materialized path construction), or the queued step list. -/
inductive ThumbInitResult
  | err (e : SubPathError)
  | errOther
  | ok (steps : List ThumbStep)
deriving DecidableEq, Repr

/-- The step list built at thumbnailer_job.rs:91-118: image files first,
then — only with the `ffmpeg` feature — video files. -/
def thumbnailer_steps (db : List ThumbFilePathRow) (locationId : Int)
    (mp : String) (imageExts videoExts : List String) (ffmpeg : Bool) :
    List ThumbStep :=
  get_files_by_extensions db locationId mp imageExts .image ++
    (if ffmpeg then get_files_by_extensions db locationId mp videoExts .video
     else [])

/-- Embedding of `ThumbnailerJob::init` (thumbnailer_job.rs:58-137).
`imageExts`/`videoExts` model `FILTERED_IMAGE_EXTENSIONS` and
`FILTERED_VIDEO_EXTENSIONS` (constants defined outside the sample), `ffmpeg`
the `ffmpeg` cargo feature. -/
def thumbnailer_init (canon : String → Option String) (isDirF : String → Bool)
    (db : List ThumbFilePathRow) (imageExts videoExts : List String)
    (ffmpeg : Bool) (init : ThumbnailerJobInit) : ThumbInitResult :=
  let locationId := init.location.id
  let locationPath := init.location.path
  match init.subPath with
  | some sp =>
    match ensure_sub_path_is_in_location canon locationPath sp with
    | .error e => .err e
    | .ok full =>
      match ensure_sub_path_is_directory canon isDirF locationPath sp with
      | .error e => .err e
      | .ok _ =>
        match materialized_path_new locationPath full true with
        | none => .errOther
        | some mp =>
          .ok (thumbnailer_steps db locationId mp imageExts videoExts ffmpeg)
  | none =>
    match materialized_path_new locationPath locationPath true with
    | none => .errOther
    | some mp =>
      .ok (thumbnailer_steps db locationId mp imageExts videoExts ffmpeg)

/-- One token fed to the `Hasher` by an `impl Hash`. -/
inductive HashToken
  | int (i : Int)
  | pathToken (p : String)
deriving DecidableEq, Repr

/-- Embedding of `impl Hash for ThumbnailerJobInit`
(thumbnailer_job.rs:39-46) as the exact stream of tokens fed to the hasher:
`location.id`, then the sub_path only when it is `Some`.  Two inits feeding
equal streams hash identically under every hasher. -/
def thumbnailer_init_hash (init : ThumbnailerJobInit) : List HashToken :=
  [HashToken.int init.location.id] ++
    (match init.subPath with
     | some sp => [HashToken.pathToken sp]
     | none => [])

/-- One entry produced by the walker: absolute path, directory flag,
creation time. -/
structure WalkedEntry where
  path : String
  isDir : Bool
  createdAt : Int
deriving DecidableEq, Repr

/-- Embedding of `IndexerJobStepEntry`: one file path the indexer will insert. -/
structure IndexerStepEntry where
  fullPath : String
  materializedPath : String
  createdAt : Int
  fileId : Int
  parentId : Option Int
deriving DecidableEq, Repr

/-- What `ShallowIndexerJob::init` leaves behind: the first reserved id, the
value stored back into the id allocator, the new entries with their assigned
ids, and the step queue (chunks of `SHALLOW_BATCH_SIZE`). -/
structure ShallowInitOut where
  firstFileId : Int
  newAllocatorValue : Int
  newPaths : List IndexerStepEntry
  steps : List (List IndexerStepEntry)
deriving DecidableEq, Repr

/-- Outcome of `ShallowIndexerJob::init`: a sub_path validation error,
another error, a panic (the `.expect` on a missing parent row), or success. -/
inductive ShallowInitResult
  | err (e : SubPathError)
  | errOther
  | panicked
  | ok (out : ShallowInitOut)
deriving DecidableEq, Repr

/-- The `BATCH_SIZE` of the shallow indexer (shallow_indexer_job.rs:32). -/
def SHALLOW_BATCH_SIZE : Nat := 1000

/-- Embedding of `already_existing_file_paths` (shallow_indexer_job.rs:144-159): the
catalogued materialized paths matching some walked entry.
`find_many_file_paths_by_full_path` (outside the sample) is modelled as
matching the catalog rows (`dbMaterializedPaths`) against the walked
entries by materialized path. -/
def shallowExisting (walk : String → List WalkedEntry)
    (dbMaterializedPaths : List String) (locationPath toWalkPath : String) :
    List String :=
  dbMaterializedPaths.filter (fun mp => (walk toWalkPath).any
    (fun w => materialized_path_new locationPath w.path w.isDir = some mp))

/-- Embedding of `new_paths` before id assignment (rs:161-186): the
walked entries whose materialized path construction succeeds and is not
already catalogued, in walk order, with `file_id` still 0. -/
def shallowNewPaths (walk : String → List WalkedEntry)
    (dbMaterializedPaths : List String) (locationPath toWalkPath : String)
    (parentId : Int) : List IndexerStepEntry :=
  (walk toWalkPath).filterMap (fun w =>
    match materialized_path_new locationPath w.path w.isDir with
    | none => none
    | some mp =>
      if (shallowExisting walk dbMaterializedPaths locationPath
          toWalkPath).contains mp then none
      else some { fullPath := w.path
                  materializedPath := mp
                  createdAt := w.createdAt
                  fileId := 0
                  parentId := some parentId })

/-- The body of `ShallowIndexerJob::init` after sub_path validation
(shallow_indexer_job.rs:128-233): walk one directory, drop entries whose
materialized path is already catalogued, push the allocator to
`first_file_id + |new|`, assign consecutive ids in walk order, and chunk. -/
def shallow_indexer_body (walk : String → List WalkedEntry)
    (dbMaterializedPaths : List String) (firstFileId : Int)
    (locationPath toWalkPath : String) (parentId : Int) : ShallowInitOut :=
  let newPaths :=
    shallowNewPaths walk dbMaterializedPaths locationPath toWalkPath parentId
  let lastFileId := firstFileId + (newPaths.length : Int)
  let withIds := newPaths.enum.map
    (fun ie => { ie.2 with fileId := firstFileId + (ie.1 : Int) })
  { firstFileId := firstFileId
    newAllocatorValue := lastFileId
    newPaths := withIds
    steps := withIds.toChunks SHALLOW_BATCH_SIZE }

/-- Embedding of `ShallowIndexerJob::init` (shallow_indexer_job.rs:67-235).
`getExistingFilePathId` models `get_existing_file_path_id` (outside the
sample): the id of the catalog row holding a given materialized path.
`storedMaxId` is the id allocator's current value for the location, read by
`get_max_file_path_id`. -/
def shallow_indexer_init (canon : String → Option String)
    (isDirF : String → Bool) (getExistingFilePathId : String → Option Int)
    (walk : String → List WalkedEntry) (dbMaterializedPaths : List String)
    (storedMaxId : Int) (locationPath subPath : String) : ShallowInitResult :=
  let firstFileId := storedMaxId + 1
  if subPath ≠ "" then
    match ensure_sub_path_is_in_location canon locationPath subPath with
    | .error e => .err e
    | .ok full =>
      match ensure_sub_path_is_directory canon isDirF locationPath subPath with
      | .error e => .err e
      | .ok _ =>
        match materialized_path_new locationPath full true with
        | none => .errOther
        | some mp =>
          match getExistingFilePathId mp with
          | none => .panicked
          | some parentId =>
            .ok (shallow_indexer_body walk dbMaterializedPaths firstFileId
              locationPath (joinPath locationPath subPath) parentId)
  else
    match materialized_path_new locationPath locationPath true with
    | none => .errOther
    | some mp =>
      match getExistingFilePathId mp with
      | none => .panicked
      | some parentId =>
        .ok (shallow_indexer_body walk dbMaterializedPaths firstFileId
          locationPath locationPath parentId)

/-- Embedding of `CoreEvent` (api/mod.rs:24-29); the invalidation payloads are modelled
as integers. -/
inductive CoreEvent
  | newThumbnail (casId : String)
  | invalidateOperation (op : Int)
  | invalidateOperationDebounced (op : Int)
deriving DecidableEq, Repr

/-- Embedding of the `invalidateQuery` subscription stream
(api/mod.rs:105-125).  The input is the sequence of events received on the
broadcast channel, each tagged with its arrival time in milliseconds; `last`
is the time stored in the stream's state (initially the subscription
instant).  `InvalidateOperation` is always yielded;
`InvalidateOperationDebounced` only when more than `1000 / 10` ms have
passed since `last`, which is then reset; other events are dropped.  The
source yields the payload `op`; we keep the whole timed event so theorems
can tell the two variants apart. -/
def invalidate_query_stream (last : Nat) :
    List (Nat × CoreEvent) → List (Nat × CoreEvent)
  | [] => []
  | (t, CoreEvent.invalidateOperation op) :: rest =>
    (t, CoreEvent.invalidateOperation op) :: invalidate_query_stream last rest
  | (t, CoreEvent.invalidateOperationDebounced op) :: rest =>
    if 1000 / 10 < t - last then
      (t, CoreEvent.invalidateOperationDebounced op) ::
        invalidate_query_stream t rest
    else invalidate_query_stream last rest
  | (_, CoreEvent.newThumbnail _) :: rest => invalidate_query_stream last rest

/-- Is this timed event a plain (non-debounced) invalidate operation? -/
def isInvalidateOp : Nat × CoreEvent → Bool
  | (_, CoreEvent.invalidateOperation _) => true
  | _ => false

/-- Is this timed event a debounced invalidate operation? -/
def isDebouncedOp : Nat × CoreEvent → Bool
  | (_, CoreEvent.invalidateOperationDebounced _) => true
  | _ => false

/-! ### Concrete instances used by the closed theorems -/

/-- Demo filesystem under `/loc`: `a.txt` and `b.txt` are duplicate 5-byte
files and `d` is a directory. -/
def fsDemo : String → Option FsMeta := fun p =>
  if p = "/loc/a.txt" ∨ p = "/loc/b.txt" then some ⟨false, 5⟩
  else if p = "/loc/d" then some ⟨true, 0⟩
  else none

/-- Demo cas function: the decimal length (duplicates share a cas id). -/
def casDemo : String → Nat → String := fun _ n => toString n

/-- Demo kind resolution: everything is `Unknown` (0). -/
def kindDemo : String → Int := fun _ => 0

/-- Demo uuid source: the i-th fresh object gets pub id `i`. -/
def uuidDemo : Nat → Nat := fun n => n

/-- Demo walker: two plain files under the walked directory. -/
def walkDemo : String → List WalkedEntry := fun _ =>
  [⟨"/loc/x", false, 1⟩, ⟨"/loc/y", false, 2⟩]

/-- Demo canonicalizer: every path is already canonical. -/
def canonDemo : String → Option String := fun p => some p

/-- Demo directory test: every path is an existing directory. -/
def isDirDemo : String → Bool := fun _ => true

/-- Demo catalog lookup: every materialized path resolves to row id 1. -/
def parentDemo : String → Option Int := fun _ => some 1

/-- Demo thumbnailer row: a `png` at the location root with NO cas id. -/
def thumbRowDemo : ThumbFilePathRow := ⟨1, "/x.png", "png", none⟩

/-- Demo location for the thumbnailer. -/
def thumbLocDemo : LocationData := ⟨1, "/loc", 7⟩

/-- Demo identifier environment over `/loc`, for either build profile. -/
def idEnvDemo (mode : BuildMode) : IdEnv :=
  ⟨mode, casDemo, kindDemo, fsDemo, uuidDemo, "/loc"⟩

/-- Demo pre-existing object: id 1, pub id 42, linked to a row whose cas id
is `"5"`. -/
def objDemo : ObjectRec := ⟨1, 42, [⟨9, some "5"⟩]⟩

/-- A second demo object with the same cas id but the larger id 2. -/
def objDemo2 : ObjectRec := ⟨2, 43, [⟨10, some "5"⟩]⟩

end Spacedrive

namespace Spacedrive

/-! ### Theorems -/

/-- C1: two file paths of one chunk share a CAS id (`"5"`) not represented
by any existing Object, yet the step creates TWO new Objects (pub ids 0 and
1) and connects the two file paths to different Objects — refuting
"exactly one new Object is created and both file_paths are connected to
that same Object". -/
theorem identifier_duplicate_cas_creates_two_objects :
    ∃ res,
      identifier_job_step (idEnvDemo .release) []
        [⟨1, "a.txt", 10⟩, ⟨2, "b.txt", 20⟩] = some res ∧
      res.casUpdates = [(1, "5"), (2, "5")] ∧
      res.newObjects.length = 2 ∧
      res.connectsNew = [(1, 0), (2, 1)] :=
  ⟨_, rfl, rfl, rfl, rfl⟩

/-- C3 counterexample: in a release build a directory in the chunk is NOT
skipped: `FileMetadata::new` hits the `assert!` and the identifier step
aborts (`none`) instead of continuing. -/
theorem release_build_directory_aborts_step :
    FileMetadata.new .release casDemo kindDemo fsDemo "/loc" "d" =
        FMResult.panicked ∧
    identifier_job_step (idEnvDemo .release) [] [⟨3, "d", 30⟩] = none :=
  ⟨rfl, rfl⟩

/-- C4 counterexample: a chunk with one file path whose CAS id is new: the
file path is connected to the freshly created Object, yet the step returns
`file_paths_linked = 0` — the second component counts only links to
pre-existing Objects. -/
theorem identifier_ret_misses_new_links :
    ∃ res,
      identifier_job_step (idEnvDemo .release) [] [⟨1, "a.txt", 10⟩] = some res ∧
      res.connectsExisting.length + res.connectsNew.length = 1 ∧
      res.ret.2 = 0 :=
  ⟨_, rfl, rfl, rfl⟩

/-- C5: starting from stored max 5 with two new entries, the entries get the
consecutive ids 6 and 7 in walk order, but the allocator is set to 8 — one
PAST the maximum assigned file_path id. -/
theorem shallow_indexer_allocator_off_by_one :
    ∃ out,
      shallow_indexer_init canonDemo isDirDemo parentDemo walkDemo [] 5
          "/loc" "" = .ok out ∧
      out.firstFileId = 6 ∧
      out.newPaths.map IndexerStepEntry.fileId = [6, 7] ∧
      out.newAllocatorValue = 8 := by
  refine ⟨_, rfl, ?_, ?_, ?_⟩ <;> decide

/-- C2 counterexample: a `png` row with a NULL cas id matching the location
and path filters IS queued by `ThumbnailerJob::init` — the query never
constrains `cas_id`. -/
theorem thumbnailer_queues_null_cas_row :
    thumbnailer_init canonDemo isDirDemo [thumbRowDemo] ["png"] ["mp4"]
        false ⟨thumbLocDemo, none, false⟩ =
      .ok [⟨thumbRowDemo, .image⟩] ∧
    thumbRowDemo.casId = none := by
  exact ⟨by decide, rfl⟩

/-- C3 (amended): a directory among the chunk's file paths fires the
`assert!` inside `FileMetadata::new` and aborts the identifier step in
EVERY build profile — debug and release alike; when no entry is a
directory the step never aborts (entries whose stat fails are merely
logged and skipped). -/
theorem identifier_directory_aborts_in_every_build (env : IdEnv)
    (dbObjects : List ObjectRec) (filePaths : List FilePathData) :
    ((∃ fp ∈ filePaths, ∃ md,
        env.fs (joinPath env.locationPath fp.materializedPath) = some md ∧
        md.isDir = true) →
      identifier_job_step env dbObjects filePaths = none) ∧
    ((∀ fp ∈ filePaths, ∀ md,
        env.fs (joinPath env.locationPath fp.materializedPath) = some md →
        md.isDir = false) →
      (identifier_job_step env dbObjects filePaths).isSome = true) := by
  constructor
  · rintro ⟨fp, hmem, md, hfs, hdir⟩
    have hcond :
        filePaths.any (fun fp => idMeta env fp = FMResult.panicked) = true := by
      rw [List.any_eq_true]
      refine ⟨fp, hmem, ?_⟩
      simp [idMeta, FileMetadata.new, hfs, hdir]
    simp [identifier_job_step, hcond]
  · intro h
    have hcond :
        filePaths.any (fun fp => idMeta env fp = FMResult.panicked) = false := by
      rw [List.any_eq_false]
      intro fp hfp
      simp only [idMeta, FileMetadata.new, decide_eq_true_eq]
      split
      · simp
      · rename_i md heq
        have hdir := h fp hfp md heq
        simp [hdir]
    simp [identifier_job_step, hcond]

/-- Witness for `identifier_directory_aborts_in_every_build`: the demo
directory `d` aborts the step in a debug build. -/
theorem identifier_directory_aborts_witness :
    identifier_job_step (idEnvDemo .debug) [] [⟨3, "d", 30⟩] = none :=
  (identifier_directory_aborts_in_every_build (idEnvDemo .debug) []
      [⟨3, "d", 30⟩]).1
    ⟨⟨3, "d", 30⟩, by decide, ⟨true, 0⟩, by decide, rfl⟩

/-- C10: `impl Hash for ThumbnailerJobInit` feeds the hasher only
`location.id` and the sub_path (when present): two inits with equal
location id and equal sub_path produce the same token stream — hence the
same hash under every hasher — whatever their background flags or other
location fields. -/
theorem thumbnailer_hash_only_location_id_and_sub_path
    (a b : ThumbnailerJobInit) (hid : a.location.id = b.location.id)
    (hsp : a.subPath = b.subPath) :
    thumbnailer_init_hash a = thumbnailer_init_hash b := by
  simp [thumbnailer_init_hash, hid, hsp]

/-- Witness for `thumbnailer_hash_only_location_id_and_sub_path`: two inits
differing in background flag, location path and location pub id hash
identically. -/
theorem thumbnailer_hash_witness :
    thumbnailer_init_hash ⟨⟨1, "/loc", 7⟩, some "sub", false⟩ =
      thumbnailer_init_hash ⟨⟨1, "/other", 99⟩, some "sub", true⟩ :=
  thumbnailer_hash_only_location_id_and_sub_path
    ⟨⟨1, "/loc", 7⟩, some "sub", false⟩ ⟨⟨1, "/other", 99⟩, some "sub", true⟩
    rfl rfl

/-- Helper: a successfully analyzed row's cas id is among the chunk's
deduplicated cas ids. -/
theorem casId_mem_unique (env : IdEnv) (filePaths : List FilePathData)
    (fp : FilePathData) (m : FileMetadata) (hfp : fp ∈ filePaths)
    (hm : idMeta env fp = .ok m) :
    (idUniqueCasIds env filePaths).contains m.casId = true := by
  have hmem : (fp, m) ∈ idMetas env filePaths :=
    List.mem_filterMap.mpr ⟨fp, hfp, by rw [hm]⟩
  have : m.casId ∈ idUniqueCasIds env filePaths := by
    unfold idUniqueCasIds
    rw [List.mem_dedup]
    exact List.mem_map.mpr ⟨(fp, m), hmem, rfl⟩
  exact List.elem_iff.mpr this

/-- Helper: an object matching a cas id of the chunk passes the
`existing_objects` query filter. -/
theorem query_filter_of_matches (env : IdEnv) (filePaths : List FilePathData)
    (o : ObjectRec) (c : String)
    (hc : (idUniqueCasIds env filePaths).contains c = true)
    (hm : objectMatchesCas o c = true) :
    (o.filePaths.any (fun f =>
      match f.casId with
      | some c' => (idUniqueCasIds env filePaths).contains c'
      | none => false)) = true := by
  rcases List.any_eq_true.mp hm with ⟨f, hf, hfc⟩
  rw [List.any_eq_true]
  refine ⟨f, hf, ?_⟩
  have hfc' : f.casId = some c := by simpa using hfc
  rw [hfc']
  exact hc

/-- Helper: for a cas id of the chunk, searching `existing_objects` is the
same as searching the whole object table — the query filter is implied by
the match predicate. -/
theorem idExistingObjects_find?_matches (env : IdEnv)
    (dbObjects : List ObjectRec) (filePaths : List FilePathData) (c : String)
    (hc : (idUniqueCasIds env filePaths).contains c = true) :
    (idExistingObjects env dbObjects filePaths).find?
        (fun o => objectMatchesCas o c) =
      dbObjects.find? (fun o => objectMatchesCas o c) := by
  unfold idExistingObjects
  rw [List.find?_filter]
  congr 1
  funext o
  cases hm : objectMatchesCas o c
  · simp [hm]
  · simp only [hm, and_true, decide_eq_true_eq]
    rw [eq_true (query_filter_of_matches env filePaths o c hc hm)]
    simp

/-- Helper: the number of step-4 connections equals the number of chunk
rows whose analysis succeeded and whose cas id matches some object of the
table. -/
theorem idConnectsExisting_length (env : IdEnv) (dbObjects : List ObjectRec)
    (filePaths : List FilePathData) :
    (idConnectsExisting env dbObjects filePaths).length =
      filePaths.countP (fun fp =>
        match idMeta env fp with
        | .ok m => dbObjects.any (fun o => objectMatchesCas o m.casId)
        | _ => false) := by
  unfold idConnectsExisting idMetas
  rw [List.length_filterMap_eq_countP, List.countP_filterMap]
  apply List.countP_congr
  intro fp hfp
  cases hm : idMeta env fp with
  | ok m =>
    simp only [hm, Option.map_some', Option.getD_some, Option.isSome_map]
    rw [idExistingObjects_find?_matches env dbObjects filePaths m.casId
      (casId_mem_unique env filePaths fp m hfp hm)]
    rw [Bool.eq_iff_iff]
    simp [List.find?_isSome, List.any_eq_true]
  | ioError => simp [hm]
  | panicked => simp [hm]

/-- C4 (amended): the identifier step returns the pair whose first
component is the number of Objects it created and whose second component
counts only the file paths connected to a PRE-EXISTING Object (rows whose
cas id matched some object already in the table); rows linked to newly
created Objects are not counted. -/
theorem identifier_step_returns_created_and_existing_links (env : IdEnv)
    (dbObjects : List ObjectRec) (filePaths : List FilePathData)
    (res : IdStepResult)
    (hres : identifier_job_step env dbObjects filePaths = some res) :
    res.ret.1 = res.newObjects.length ∧
    res.ret.2 = filePaths.countP (fun fp =>
      match idMeta env fp with
      | .ok m => dbObjects.any (fun o => objectMatchesCas o m.casId)
      | _ => false) := by
  unfold identifier_job_step at hres
  split at hres
  · exact absurd hres (by simp)
  · cases Option.some.inj hres
    constructor
    · show (if (idRequiringNew env dbObjects filePaths).isEmpty then 0
        else (idNewObjects env dbObjects filePaths).length) =
          (idNewObjects env dbObjects filePaths).length
      cases he : (idRequiringNew env dbObjects filePaths).isEmpty
      · simp [he]
      · simp [he, idNewObjects, List.isEmpty_iff.mp he]
    · exact idConnectsExisting_length env dbObjects filePaths

/-- Witness for `identifier_step_returns_created_and_existing_links`: one
row matching the pre-existing demo object gives `ret = (0, 1)`. -/
theorem identifier_step_returns_witness :
    ∃ res,
      identifier_job_step (idEnvDemo .release) [objDemo]
          [⟨1, "a.txt", 10⟩] = some res ∧
      res.ret.1 = res.newObjects.length ∧
      res.ret.2 = [(⟨1, "a.txt", 10⟩ : FilePathData)].countP (fun fp =>
        match idMeta (idEnvDemo .release) fp with
        | .ok m => [objDemo].any (fun o => objectMatchesCas o m.casId)
        | _ => false) :=
  ⟨_, rfl, identifier_step_returns_created_and_existing_links
    (idEnvDemo .release) [objDemo] [⟨1, "a.txt", 10⟩] _ rfl⟩

/-- Helper: on a list sorted by ascending object id, `find?` returns a
matching object of minimal id. -/
theorem find?_min_id {l : List ObjectRec} {p : ObjectRec → Bool}
    {o : ObjectRec} (hsorted : l.Pairwise (fun a b => a.id ≤ b.id))
    (h : l.find? p = some o) :
    ∀ o₂ ∈ l, p o₂ = true → o.id ≤ o₂.id := by
  induction l with
  | nil => simp at h
  | cons a t ih =>
    intro o₂ ho₂ hp₂
    cases hpa : p a
    · rw [List.find?_cons_of_neg _ (by simp [hpa])] at h
      rcases List.mem_cons.mp ho₂ with rfl | ho₂
      · rw [hpa] at hp₂; exact absurd hp₂ (by simp)
      · exact ih (List.pairwise_cons.mp hsorted).2 h o₂ ho₂ hp₂
    · rw [List.find?_cons_of_pos _ hpa] at h
      cases Option.some.inj h
      rcases List.mem_cons.mp ho₂ with rfl | ho₂
      · exact le_refl _
      · exact List.rel_of_pairwise_cons hsorted ho₂

/-- C7: when the object query returns rows in ascending object-id order,
every file path whose cas id is already represented by some object of the
table is connected to the matching object with the LOWEST id — the
source's `find` takes the first match of the query result. -/
theorem identifier_links_lowest_id_object (env : IdEnv)
    (dbObjects : List ObjectRec) (filePaths : List FilePathData)
    (res : IdStepResult)
    (hres : identifier_job_step env dbObjects filePaths = some res)
    (hsorted : dbObjects.Pairwise (fun a b => a.id ≤ b.id))
    (fp : FilePathData) (m : FileMetadata) (hfp : fp ∈ filePaths)
    (hm : idMeta env fp = .ok m)
    (o : ObjectRec) (ho : o ∈ dbObjects)
    (hmatch : objectMatchesCas o m.casId = true) :
    ∃ o₀ ∈ dbObjects,
      objectMatchesCas o₀ m.casId = true ∧
      (fp.id, o₀.pubId) ∈ res.connectsExisting ∧
      ∀ o₂ ∈ dbObjects, objectMatchesCas o₂ m.casId = true →
        o₀.id ≤ o₂.id := by
  unfold identifier_job_step at hres
  split at hres
  · exact absurd hres (by simp)
  · cases Option.some.inj hres
    have hc := casId_mem_unique env filePaths fp m hfp hm
    have hfind := idExistingObjects_find?_matches env dbObjects filePaths
      m.casId hc
    have hsome : (dbObjects.find? (fun o => objectMatchesCas o m.casId)).isSome :=
      List.find?_isSome.mpr ⟨o, ho, hmatch⟩
    rcases Option.isSome_iff_exists.mp hsome with ⟨o₀, hfo⟩
    refine ⟨o₀, List.mem_of_find?_eq_some hfo, ?_, ?_,
      find?_min_id hsorted hfo⟩
    · simpa using List.find?_some hfo
    show (fp.id, o₀.pubId) ∈ idConnectsExisting env dbObjects filePaths
    unfold idConnectsExisting
    refine List.mem_filterMap.mpr ⟨(fp, m), ?_, ?_⟩
    · exact List.mem_filterMap.mpr ⟨fp, hfp, by rw [hm]⟩
    · rw [hfind, hfo, Option.map_some']

/-- Witness for `identifier_links_lowest_id_object`: with two matching
objects (ids 1 and 2) in the table, the demo row connects to the one with
id 1. -/
theorem identifier_links_lowest_id_witness :
    ∃ res,
      identifier_job_step (idEnvDemo .release) [objDemo, objDemo2]
          [⟨1, "a.txt", 10⟩] = some res ∧
      ∃ o₀ ∈ [objDemo, objDemo2],
        objectMatchesCas o₀ "5" = true ∧
        (1, o₀.pubId) ∈ res.connectsExisting ∧
        ∀ o₂ ∈ [objDemo, objDemo2], objectMatchesCas o₂ "5" = true →
          o₀.id ≤ o₂.id :=
  ⟨_, rfl,
    identifier_links_lowest_id_object (idEnvDemo .release)
      [objDemo, objDemo2] [⟨1, "a.txt", 10⟩] _ rfl (by decide)
      ⟨1, "a.txt", 10⟩ ⟨"5", 0, 5⟩ (by decide) rfl
      objDemo (by decide) (by decide)⟩

/-- Helper: membership in the thumbnailer step list implies the query's
filters — location id, extension set (per kind) and materialized-path
beginning. -/
theorem mem_thumbnailer_steps {db : List ThumbFilePathRow} {locationId : Int}
    {mp : String} {imageExts videoExts : List String} {ffmpeg : Bool}
    {s : ThumbStep}
    (hs : s ∈ thumbnailer_steps db locationId mp imageExts videoExts ffmpeg) :
    s.filePath.locationId = locationId ∧
    strStartsWith s.filePath.materializedPath mp = true ∧
    ((s.kind = ThumbKind.image ∧ s.filePath.extension ∈ imageExts) ∨
     (s.kind = ThumbKind.video ∧ ffmpeg = true ∧
       s.filePath.extension ∈ videoExts)) := by
  unfold thumbnailer_steps at hs
  rw [List.mem_append] at hs
  rcases hs with hs | hs
  · unfold get_files_by_extensions at hs
    rcases List.mem_map.mp hs with ⟨fp, hfp, rfl⟩
    rw [List.mem_filter] at hfp
    obtain ⟨-, hcond⟩ := hfp
    simp only [Bool.and_eq_true, decide_eq_true_eq] at hcond
    exact ⟨hcond.1.1, hcond.2, Or.inl ⟨rfl, List.elem_iff.mp hcond.1.2⟩⟩
  · cases hffm : ffmpeg
    · rw [hffm] at hs; simp at hs
    · rw [hffm] at hs
      simp only [if_true] at hs
      unfold get_files_by_extensions at hs
      rcases List.mem_map.mp hs with ⟨fp, hfp, rfl⟩
      rw [List.mem_filter] at hfp
      obtain ⟨-, hcond⟩ := hfp
      simp only [Bool.and_eq_true, decide_eq_true_eq] at hcond
      exact ⟨hcond.1.1, hcond.2, Or.inr ⟨rfl, rfl, List.elem_iff.mp hcond.1.2⟩⟩

/-- C2 (amended): every step queued by `ThumbnailerJob::init` references a
file path of the init's location whose extension is in the image set (kind
Image) or, with video support enabled, the video set (kind Video), and
whose materialized path starts with the chosen materialized prefix (the
sub_path's if given, otherwise the location root's).  The cas id is NOT
constrained: `init` never filters on it. -/
theorem thumbnailer_init_steps_are_filtered (canon : String → Option String)
    (isDirF : String → Bool) (db : List ThumbFilePathRow)
    (imageExts videoExts : List String) (ffmpeg : Bool)
    (init : ThumbnailerJobInit) (steps : List ThumbStep)
    (hok : thumbnailer_init canon isDirF db imageExts videoExts ffmpeg init =
      .ok steps) :
    ∃ mp,
      (match init.subPath with
       | none =>
         materialized_path_new init.location.path init.location.path true =
           some mp
       | some sp => ∃ full,
         ensure_sub_path_is_in_location canon init.location.path sp =
           .ok full ∧
         materialized_path_new init.location.path full true = some mp) ∧
      ∀ s ∈ steps,
        s.filePath.locationId = init.location.id ∧
        strStartsWith s.filePath.materializedPath mp = true ∧
        ((s.kind = ThumbKind.image ∧ s.filePath.extension ∈ imageExts) ∨
         (s.kind = ThumbKind.video ∧ ffmpeg = true ∧
           s.filePath.extension ∈ videoExts)) := by
  unfold thumbnailer_init at hok
  cases hsub : init.subPath with
  | none =>
    rw [hsub] at hok
    dsimp only at hok
    cases hmp : materialized_path_new init.location.path init.location.path
        true with
    | none => rw [hmp] at hok; exact absurd hok (by simp)
    | some mp =>
      rw [hmp] at hok
      cases hok
      exact ⟨mp, rfl, fun s hs => mem_thumbnailer_steps hs⟩
  | some sp =>
    rw [hsub] at hok
    dsimp only at hok
    cases hin : ensure_sub_path_is_in_location canon init.location.path sp with
    | error e => rw [hin] at hok; exact absurd hok (by simp)
    | ok full =>
      rw [hin] at hok
      dsimp only at hok
      cases hdir : ensure_sub_path_is_directory canon isDirF
          init.location.path sp with
      | error e => rw [hdir] at hok; exact absurd hok (by simp)
      | ok u =>
        rw [hdir] at hok
        dsimp only at hok
        cases hmp : materialized_path_new init.location.path full true with
        | none => rw [hmp] at hok; exact absurd hok (by simp)
        | some mp =>
          rw [hmp] at hok
          cases hok
          exact ⟨mp, ⟨full, hin, hmp⟩, fun s hs => mem_thumbnailer_steps hs⟩

/-- Witness for `thumbnailer_init_steps_are_filtered`: the demo run at the
location root. -/
theorem thumbnailer_init_steps_witness :
    ∃ mp,
      (match (none : Option String) with
       | none => materialized_path_new "/loc" "/loc" true = some mp
       | some sp => ∃ full,
         ensure_sub_path_is_in_location canonDemo "/loc" sp = .ok full ∧
         materialized_path_new "/loc" full true = some mp) ∧
      ∀ s ∈ [(⟨thumbRowDemo, ThumbKind.image⟩ : ThumbStep)],
        s.filePath.locationId = (1 : Int) ∧
        strStartsWith s.filePath.materializedPath mp = true ∧
        ((s.kind = ThumbKind.image ∧ s.filePath.extension ∈ ["png"]) ∨
         (s.kind = ThumbKind.video ∧ False = true ∧
           s.filePath.extension ∈ ["mp4"])) := by
  have h := thumbnailer_init_steps_are_filtered canonDemo isDirDemo
    [thumbRowDemo] ["png"] ["mp4"] false ⟨thumbLocDemo, none, false⟩
    [⟨thumbRowDemo, ThumbKind.image⟩] (by decide)
  simpa using h

/-- Helper: when every walked entry's materialized path is already in the
catalog, the shallow indexer body produces no new entries, no steps, and
leaves the allocator at `first_file_id`. -/
theorem shallow_indexer_body_no_new (walk : String → List WalkedEntry)
    (dbMaterializedPaths : List String) (firstFileId : Int)
    (locationPath toWalkPath : String) (parentId : Int)
    (h : ∀ w ∈ walk toWalkPath, ∀ mp,
      materialized_path_new locationPath w.path w.isDir = some mp →
      mp ∈ dbMaterializedPaths) :
    shallow_indexer_body walk dbMaterializedPaths firstFileId locationPath
        toWalkPath parentId =
      { firstFileId := firstFileId
        newAllocatorValue := firstFileId
        newPaths := []
        steps := [] } := by
  have hnil : shallowNewPaths walk dbMaterializedPaths locationPath
      toWalkPath parentId = [] := by
    unfold shallowNewPaths
    rw [List.filterMap_eq_nil_iff]
    intro w hw
    cases hmp : materialized_path_new locationPath w.path w.isDir with
    | none => rfl
    | some mp =>
      have hin : mp ∈ shallowExisting walk dbMaterializedPaths locationPath
          toWalkPath :=
        List.mem_filter.mpr ⟨h w hw mp hmp,
          List.any_eq_true.mpr ⟨w, hw, by simp [hmp]⟩⟩
      have hc : (shallowExisting walk dbMaterializedPaths locationPath
          toWalkPath).contains mp = true := List.elem_iff.mpr hin
      simp [hc, hin]
  unfold shallow_indexer_body
  rw [hnil]
  simp [List.toChunks]

/-- C6: a second shallow-indexer run over an unchanged directory whose
first-run entries are all persisted yields zero new entries and an empty
step list — every walked path is excluded by the materialized-path
comparison, so no insert happens. -/
theorem shallow_indexer_idempotent (canon : String → Option String)
    (isDirF : String → Bool) (getExistingFilePathId : String → Option Int)
    (walk : String → List WalkedEntry) (dbMaterializedPaths : List String)
    (storedMaxId : Int) (locationPath subPath : String)
    (out : ShallowInitOut)
    (hok : shallow_indexer_init canon isDirF getExistingFilePathId walk
      dbMaterializedPaths storedMaxId locationPath subPath = .ok out)
    (hpersisted : ∀ d, ∀ w ∈ walk d, ∀ mp,
      materialized_path_new locationPath w.path w.isDir = some mp →
      mp ∈ dbMaterializedPaths) :
    out.newPaths = [] ∧ out.steps = [] := by
  unfold shallow_indexer_init at hok
  dsimp only at hok
  split at hok
  · cases hin : ensure_sub_path_is_in_location canon locationPath subPath with
    | error e => rw [hin] at hok; exact absurd hok (by simp)
    | ok full =>
      rw [hin] at hok
      dsimp only at hok
      cases hdir : ensure_sub_path_is_directory canon isDirF locationPath
          subPath with
      | error e => rw [hdir] at hok; exact absurd hok (by simp)
      | ok u =>
        rw [hdir] at hok
        dsimp only at hok
        cases hmp : materialized_path_new locationPath full true with
        | none => rw [hmp] at hok; exact absurd hok (by simp)
        | some mp =>
          rw [hmp] at hok
          dsimp only at hok
          cases hpid : getExistingFilePathId mp with
          | none => rw [hpid] at hok; exact absurd hok (by simp)
          | some parentId =>
            rw [hpid] at hok
            dsimp only at hok
            cases hok
            rw [shallow_indexer_body_no_new walk dbMaterializedPaths
              (storedMaxId + 1) locationPath
              (joinPath locationPath subPath) parentId
              (hpersisted (joinPath locationPath subPath))]
            exact ⟨rfl, rfl⟩
  · cases hmp : materialized_path_new locationPath locationPath true with
    | none => rw [hmp] at hok; exact absurd hok (by simp)
    | some mp =>
      rw [hmp] at hok
      dsimp only at hok
      cases hpid : getExistingFilePathId mp with
      | none => rw [hpid] at hok; exact absurd hok (by simp)
      | some parentId =>
        rw [hpid] at hok
        dsimp only at hok
        cases hok
        rw [shallow_indexer_body_no_new walk dbMaterializedPaths
          (storedMaxId + 1) locationPath locationPath parentId
          (hpersisted locationPath)]
        exact ⟨rfl, rfl⟩

/-- Witness for `shallow_indexer_idempotent`: the demo walk with both
materialized paths already catalogued produces no steps. -/
theorem shallow_indexer_idempotent_witness :
    ∃ out,
      shallow_indexer_init canonDemo isDirDemo parentDemo walkDemo
          ["/x", "/y"] 5 "/loc" "" = .ok out ∧
      out.newPaths = [] ∧ out.steps = [] := by
  refine ⟨_, rfl, ?_⟩
  apply shallow_indexer_idempotent canonDemo isDirDemo parentDemo walkDemo
    ["/x", "/y"] 5 "/loc" "" _ rfl
  intro d w hw mp hmp
  rcases List.mem_cons.mp hw with rfl | hw
  · rw [show materialized_path_new "/loc" "/loc/x" false = some "/x" from
      by decide] at hmp
    cases hmp
    decide
  · rcases List.mem_cons.mp hw with rfl | hw
    · rw [show materialized_path_new "/loc" "/loc/y" false = some "/y" from
        by decide] at hmp
      cases hmp
      decide
    · cases hw

/-- Helper: the subscription stream yields every plain
`InvalidateOperation` event, in order, regardless of timing. -/
theorem stream_keeps_plain (last : Nat) (events : List (Nat × CoreEvent)) :
    (invalidate_query_stream last events).filter isInvalidateOp =
      events.filter isInvalidateOp := by
  induction events generalizing last with
  | nil => rfl
  | cons e rest ih =>
    obtain ⟨t, ev⟩ := e
    cases ev with
    | newThumbnail c => simp [invalidate_query_stream, isInvalidateOp, ih]
    | invalidateOperation op =>
      simp [invalidate_query_stream, isInvalidateOp, ih]
    | invalidateOperationDebounced op =>
      by_cases hcond : 1000 / 10 < t - last
      · simp [invalidate_query_stream, hcond, isInvalidateOp, ih]
      · simp [invalidate_query_stream, hcond, isInvalidateOp, ih]

/-- Helper: with nondecreasing arrival times, every yielded debounced
event is dated more than 100 ms after the stored `last`, and consecutive
yielded debounced events are more than 100 ms apart. -/
theorem stream_debounced_gap (last : Nat) (events : List (Nat × CoreEvent))
    (hmono : List.Pairwise (fun a b : Nat => a ≤ b) (events.map Prod.fst)) :
    (∀ x ∈ (invalidate_query_stream last events).filter isDebouncedOp,
      last + 100 < x.1) ∧
    List.Chain' (fun a b => a.1 + 100 < b.1)
      ((invalidate_query_stream last events).filter isDebouncedOp) := by
  induction events generalizing last with
  | nil => exact ⟨by simp [invalidate_query_stream], by
      simp [invalidate_query_stream]⟩
  | cons e rest ih =>
    obtain ⟨t, ev⟩ := e
    rw [List.map_cons] at hmono
    obtain ⟨hle, hmono'⟩ := List.pairwise_cons.mp hmono
    cases ev with
    | newThumbnail c =>
      simpa [invalidate_query_stream] using ih last hmono'
    | invalidateOperation op =>
      simpa [invalidate_query_stream, isDebouncedOp] using ih last hmono'
    | invalidateOperationDebounced op =>
      by_cases hcond : 1000 / 10 < t - last
      · have hcond' : 100 < t - last := by simpa using hcond
        have hlt : last + 100 < t := by omega
        have iht := ih t hmono'
        rw [show invalidate_query_stream last
            ((t, CoreEvent.invalidateOperationDebounced op) :: rest) =
            (t, CoreEvent.invalidateOperationDebounced op) ::
              invalidate_query_stream t rest from by
          simp [invalidate_query_stream, hcond]]
        rw [List.filter_cons_of_pos (by simp [isDebouncedOp])]
        constructor
        · intro x hx
          rcases List.mem_cons.mp hx with rfl | hx
          · exact hlt
          · have := iht.1 x hx
            omega
        · rw [List.chain'_cons']
          refine ⟨?_, iht.2⟩
          intro y hy
          exact iht.1 y (List.mem_of_mem_head? hy)
      · simpa [invalidate_query_stream, hcond] using ih last hmono'

/-- C8: on any received event sequence with nondecreasing arrival times,
the `invalidateQuery` subscription yields every `InvalidateOperation`
without coalescing, while the `InvalidateOperationDebounced` events it
yields are spaced more than `1000 / 10` ms apart — at most one per 100 ms
window, intermediate ones dropped. -/
theorem invalidate_query_subscription_semantics (last : Nat)
    (events : List (Nat × CoreEvent))
    (hmono : List.Pairwise (fun a b : Nat => a ≤ b) (events.map Prod.fst)) :
    (invalidate_query_stream last events).filter isInvalidateOp =
      events.filter isInvalidateOp ∧
    List.Chain' (fun a b => a.1 + 100 < b.1)
      ((invalidate_query_stream last events).filter isDebouncedOp) :=
  ⟨stream_keeps_plain last events,
    (stream_debounced_gap last events hmono).2⟩

/-- Witness for `invalidate_query_subscription_semantics`: a concrete
four-event sequence (one plain, three debounced 150 ms, 200 ms and 300 ms
after subscription). -/
theorem invalidate_query_subscription_witness :
    (invalidate_query_stream 0
        [(10, CoreEvent.invalidateOperation 1),
         (150, CoreEvent.invalidateOperationDebounced 2),
         (200, CoreEvent.invalidateOperationDebounced 3),
         (300, CoreEvent.invalidateOperationDebounced 4)]).filter
        isInvalidateOp =
      [(10, CoreEvent.invalidateOperation 1),
       (150, CoreEvent.invalidateOperationDebounced 2),
       (200, CoreEvent.invalidateOperationDebounced 3),
       (300, CoreEvent.invalidateOperationDebounced 4)].filter
        isInvalidateOp ∧
    List.Chain' (fun a b => a.1 + 100 < b.1)
      ((invalidate_query_stream 0
        [(10, CoreEvent.invalidateOperation 1),
         (150, CoreEvent.invalidateOperationDebounced 2),
         (200, CoreEvent.invalidateOperationDebounced 3),
         (300, CoreEvent.invalidateOperationDebounced 4)]).filter
        isDebouncedOp) :=
  invalidate_query_subscription_semantics 0
    [(10, CoreEvent.invalidateOperation 1),
     (150, CoreEvent.invalidateOperationDebounced 2),
     (200, CoreEvent.invalidateOperationDebounced 3),
     (300, CoreEvent.invalidateOperationDebounced 4)] (by decide)

/-- C9: for both the shallow indexer (non-empty `sub_path`) and the
thumbnailer (`Some` sub_path), a sub_path that does not lie inside the
location after canonicalization makes `init` fail with
`SubPathNotInLocation`, and one that passes that check but is not an
existing directory makes it fail with `SubPathNotDirectory`; in either
case `init` returns the error and produces no steps. -/
theorem sub_path_validation_errors (canon : String → Option String)
    (isDirF : String → Bool) (getExistingFilePathId : String → Option Int)
    (walk : String → List WalkedEntry) (dbMaterializedPaths : List String)
    (storedMaxId : Int) (db : List ThumbFilePathRow)
    (imageExts videoExts : List String) (ffmpeg : Bool) (loc : LocationData)
    (sp : String) (bg : Bool) :
    (sp ≠ "" →
      ensure_sub_path_is_in_location canon loc.path sp =
        .error .notInLocation →
      shallow_indexer_init canon isDirF getExistingFilePathId walk
        dbMaterializedPaths storedMaxId loc.path sp = .err .notInLocation) ∧
    (sp ≠ "" →
      (∃ full, ensure_sub_path_is_in_location canon loc.path sp = .ok full) →
      ensure_sub_path_is_directory canon isDirF loc.path sp =
        .error .notDirectory →
      shallow_indexer_init canon isDirF getExistingFilePathId walk
        dbMaterializedPaths storedMaxId loc.path sp = .err .notDirectory) ∧
    (ensure_sub_path_is_in_location canon loc.path sp =
        .error .notInLocation →
      thumbnailer_init canon isDirF db imageExts videoExts ffmpeg
        ⟨loc, some sp, bg⟩ = .err .notInLocation) ∧
    ((∃ full, ensure_sub_path_is_in_location canon loc.path sp = .ok full) →
      ensure_sub_path_is_directory canon isDirF loc.path sp =
        .error .notDirectory →
      thumbnailer_init canon isDirF db imageExts videoExts ffmpeg
        ⟨loc, some sp, bg⟩ = .err .notDirectory) := by
  refine ⟨?_, ?_, ?_, ?_⟩
  · intro hsp hin
    unfold shallow_indexer_init
    rw [if_pos hsp, hin]
  · rintro hsp ⟨full, hin⟩ hdir
    unfold shallow_indexer_init
    rw [if_pos hsp, hin]
    dsimp only
    rw [hdir]
  · intro hin
    unfold thumbnailer_init
    dsimp only
    rw [hin]
  · rintro ⟨full, hin⟩ hdir
    unfold thumbnailer_init
    dsimp only
    rw [hin]
    dsimp only
    rw [hdir]

/-- Witness for `sub_path_validation_errors`: a canonicalizer that fails
makes the shallow indexer report `SubPathNotInLocation`, and a filesystem
with no directories makes the thumbnailer report `SubPathNotDirectory`. -/
theorem sub_path_validation_witness :
    shallow_indexer_init (fun _ => none) isDirDemo parentDemo walkDemo [] 5
        "/loc" "sub" = .err .notInLocation ∧
    thumbnailer_init canonDemo (fun _ => false) [] ["png"] [] false
        ⟨⟨1, "/loc", 7⟩, some "sub", false⟩ = .err .notDirectory :=
  ⟨(sub_path_validation_errors (fun _ => none) isDirDemo parentDemo walkDemo
      [] 5 [] ["png"] [] false ⟨1, "/loc", 7⟩ "sub" false).1
      (by decide) rfl,
   (sub_path_validation_errors canonDemo (fun _ => false) parentDemo walkDemo
      [] 5 [] ["png"] [] false ⟨1, "/loc", 7⟩ "sub" false).2.2.2
      ⟨"/loc/sub", rfl⟩ rfl⟩

end Spacedrive
